import Mathlib

/-!
Verification development for the sidetree content-addressed retrieval client.

The embedding covers:
* `src/lib/ipfs/IpfsStorage.ts` — the `read` protocol (metadata probe,
  size-bounded streaming fetch, pin-on-success), the singleton lifecycle
  (`createSingleton` / `getSingleton` / `stop`), and `fetchContent`.
* `src/lib/core/versions/latest/DidDocument.ts` — `getPublicKey`.
* `AsyncTimeout.timeoutAsyncCall` — imported by `IpfsStorage.ts` from
  `../common/AsyncTimeout`, whose source is not part of the given files;
  it is modelled from the spec where a claim needs it directly.

Remote-call outcomes (the IPFS node's `object.stat`, `cat`, `pin.add`) are
modelled as data: each call either raises (an `Except.error`) or yields its
value.  Timeouts raised by the deadline guard wrapped around a remote call
surface as raised errors at the call site, exactly as a thrown timeout does in
the TypeScript, so the `Except.error` case of each field covers both a
remote-store failure and a guard timeout.  Bytes are modelled as `Nat`s and a
`Buffer` chunk as a `List Nat`; `Buffer.concat` is list join.
-/

namespace SidetreeSpec

/-- `FetchResultCode` from `src/lib/common/FetchResultCode` as used by
`IpfsStorage.ts`: the four terminal outcomes of a read attempt. -/
inductive FetchResultCode where
  | Success
  | NotFound
  | MaxSizeExceeded
  | NotAFile
deriving DecidableEq, Repr

/-- `FetchResult` from `src/lib/common/models/FetchResult`: a code and an
optional content buffer.  In `IpfsStorage.ts` only the `Success` path ever
assigns `content`. -/
structure FetchResult where
  code : FetchResultCode
  content : Option (List Nat) := none
deriving DecidableEq, Repr

/-- The metadata object returned by `node.object.stat(hash)`.  The TypeScript
checks `contentMetadata.DataSize === undefined`, so the declared size is
modelled as optional. -/
structure StatMetadata where
  DataSize : Option Nat
deriving DecidableEq, Repr

/-- One outcome of pulling `iterator.next()` (under the deadline guard) in
`IpfsStorage.fetchContent`:
* `step value done` — a normal iterator result `{ value, done }`, where the
  chunk `value` may be `undefined` (modelled as `none`);
* `undef` — the guarded pull resolved with an `undefined` result
  (the `result === undefined` branch);
* `err` — the pull raised (a stream-level error or a guard timeout). -/
inductive PullEvent where
  | step (value : Option (List Nat)) (done : Bool)
  | undef
  | err
deriving DecidableEq, Repr

/-- The remote IPFS node's behaviour for one fixed content identifier, as
observed by the calls `IpfsStorage.read` makes:
* `stat` — outcome of the deadline-guarded `node.object.stat(hash)`:
  raised error (including timeout), or a possibly-`undefined` metadata value;
* `catOpen` — outcome of `node.cat(hash)`: raised error, or the sequence of
  pull outcomes the returned iterator will produce (after the list is
  exhausted, a JavaScript async iterator keeps answering
  `{ value: undefined, done: true }`, which the model builds in);
* `pinAdd` — outcome of `node.pin.add(hash)`. -/
structure IpfsNode where
  stat : Except Unit (Option StatMetadata)
  catOpen : Except Unit (List PullEvent)
  pinAdd : Except Unit Unit
deriving Repr

/-- The chunk-accumulation loop of `IpfsStorage.fetchContent`
(`src/lib/ipfs/IpfsStorage.ts`, the `do … while (!result.done)` loop), with
state `bufferChunks` and `currentContentSize`.  Returns the `FetchResult`
together with the number of pulls performed from this point on.  An exhausted
event list behaves as the iterator answering `{ value: undefined, done: true }`
(one final pull that immediately exits the loop). -/
def fetchContentLoop (maxSizeInBytes : Nat) :
    List PullEvent → List (List Nat) → Nat → FetchResult × Nat
  | [], bufferChunks, _ =>
    ({ code := FetchResultCode.Success, content := some bufferChunks.flatten }, 1)
  | PullEvent.undef :: _, _, _ =>
    ({ code := FetchResultCode.NotFound }, 1)
  | PullEvent.err :: _, _, _ =>
    ({ code := FetchResultCode.NotAFile }, 1)
  | PullEvent.step none d :: rest, bufferChunks, currentContentSize =>
    if d then
      ({ code := FetchResultCode.Success, content := some bufferChunks.flatten }, 1)
    else
      let r := fetchContentLoop maxSizeInBytes rest bufferChunks currentContentSize
      (r.1, r.2 + 1)
  | PullEvent.step (some chunk) d :: rest, bufferChunks, currentContentSize =>
    let newSize := currentContentSize + chunk.length
    if maxSizeInBytes < newSize then
      ({ code := FetchResultCode.MaxSizeExceeded }, 1)
    else if d then
      ({ code := FetchResultCode.Success, content := some (bufferChunks ++ [chunk]).flatten }, 1)
    else
      let r := fetchContentLoop maxSizeInBytes rest (bufferChunks ++ [chunk]) newSize
      (r.1, r.2 + 1)

/-- `IpfsStorage.fetchContent` (`src/lib/ipfs/IpfsStorage.ts`): open the
stream with `node.cat(hash)` inside the `try`, then run the accumulation
loop; any raise is answered with `NotAFile`.  Returns the `FetchResult` and
the number of pulls performed. -/
def fetchContent (node : IpfsNode) (maxSizeInBytes : Nat) : FetchResult × Nat :=
  match node.catOpen with
  | Except.error _ => ({ code := FetchResultCode.NotAFile }, 0)
  | Except.ok events => fetchContentLoop maxSizeInBytes events [] 0

/-- Everything observable about one `IpfsStorage.read` call:
* `result` — the returned `FetchResult`, or `Except.error` when a raised
  error escapes `read` to its caller;
* `catOpened` — whether `node.cat` was invoked (i.e. `fetchContent` ran);
* `pullCount` — how many iterator pulls were performed;
* `pinCount` — how many `node.pin.add` calls were issued. -/
structure ReadOutcome where
  result : Except Unit FetchResult
  catOpened : Bool
  pullCount : Nat
  pinCount : Nat
deriving Repr

/-- `IpfsStorage.read` (`src/lib/ipfs/IpfsStorage.ts`).  Stage 1: the
deadline-guarded `node.object.stat(hash)` inside `try`/`catch`, any raise
(including timeout) answered with `NotFound`; `undefined` metadata or missing
`DataSize` answered with `NotFound`; a declared size strictly over the limit
answered with `MaxSizeExceeded` before the stream is opened.  Stage 2:
`fetchContent`.  Stage 3: when the fetch result's code is `Success`,
`await this.node.pin.add(hash)` — this call is not guarded, so a pin failure
propagates out of `read` as a raised error.  The `hash` argument only selects
which content the node calls act on, which the `node` value already fixes. -/
def read (node : IpfsNode) (hash : String) (maxSizeInBytes : Nat) : ReadOutcome :=
  match node.stat with
  | Except.error _ =>
    { result := Except.ok { code := FetchResultCode.NotFound },
      catOpened := false, pullCount := 0, pinCount := 0 }
  | Except.ok none =>
    { result := Except.ok { code := FetchResultCode.NotFound },
      catOpened := false, pullCount := 0, pinCount := 0 }
  | Except.ok (some contentMetadata) =>
    match contentMetadata.DataSize with
    | none =>
      { result := Except.ok { code := FetchResultCode.NotFound },
        catOpened := false, pullCount := 0, pinCount := 0 }
    | some dataSize =>
      if maxSizeInBytes < dataSize then
        { result := Except.ok { code := FetchResultCode.MaxSizeExceeded },
          catOpened := false, pullCount := 0, pinCount := 0 }
      else
        let fetched := fetchContent node maxSizeInBytes
        if fetched.1.code = FetchResultCode.Success then
          match node.pinAdd with
          | Except.error e =>
            { result := Except.error e,
              catOpened := true, pullCount := fetched.2, pinCount := 1 }
          | Except.ok _ =>
            { result := Except.ok fetched.1,
              catOpened := true, pullCount := fetched.2, pinCount := 1 }
        else
          { result := Except.ok fetched.1,
            catOpened := true, pullCount := fetched.2, pinCount := 0 }

/-- The chunks a stream's event list delivers on a run that completes
normally: the `value`s of the iterator results, in receipt order, up to and
including the first result with `done = true`. -/
def streamChunks : List PullEvent → List (List Nat)
  | [] => []
  | PullEvent.step (some c) d :: rest => c :: (if d then [] else streamChunks rest)
  | PullEvent.step none d :: rest => if d then [] else streamChunks rest
  | PullEvent.undef :: _ => []
  | PullEvent.err :: _ => []

/-! ### Singleton lifecycle of `IpfsStorage`

The static slot `IpfsStorage.ipfsStorageSingleton : IpfsStorage | undefined`
is modelled as an `Option` passed in and returned explicitly.  The instance
itself holds the node handle created by `IPFS.create(options)`; for the
lifecycle claims all that matters about the handle is which repo it was
opened on and whether `node.stop()` has been called on it. -/

/-- The node handle held by an `IpfsStorage` instance: the repo it was opened
on (`IPFS.create({ repo })`) and whether `node.stop()` has been called. -/
structure IpfsNodeHandle where
  repo : String
  stopped : Bool
deriving DecidableEq, Repr

/-- An `IpfsStorage` instance: the private constructor just stores the node
handle. -/
structure IpfsStorageInstance where
  node : IpfsNodeHandle
deriving DecidableEq, Repr

/-- The two lifecycle faults `IpfsStorage` raises: `createSingleton` throws
`Error('IpfsStorage is a singleton thus cannot be created twice. …')`
(`AlreadyExists`), and `getSingleton` throws `Error('IpfsStorage is a
singleton, Please use the createSingleton method before get')`
(`NotInitialized`). -/
inductive SingletonError where
  | AlreadyExists
  | NotInitialized
deriving DecidableEq, Repr

/-- `IpfsStorage.createSingleton(repo?)`: when the slot is empty, open a node
on the given repo (defaulting to `'sidetree-ipfs'`), store the new instance in
the slot and return it; otherwise throw, leaving the slot untouched.  Returns
the call's outcome together with the slot's new value. -/
def createSingleton (slot : Option IpfsStorageInstance) (repo : Option String) :
    Except SingletonError IpfsStorageInstance × Option IpfsStorageInstance :=
  match slot with
  | none =>
    let localRepoName := "sidetree-ipfs"
    let node : IpfsNodeHandle := { repo := repo.getD localRepoName, stopped := false }
    let inst : IpfsStorageInstance := { node := node }
    (Except.ok inst, some inst)
  | some inst => (Except.error SingletonError.AlreadyExists, some inst)

/-- `IpfsStorage.getSingleton()`: throw when the slot is empty, otherwise
return the stored instance.  Read-only on the slot. -/
def getSingleton (slot : Option IpfsStorageInstance) :
    Except SingletonError IpfsStorageInstance × Option IpfsStorageInstance :=
  match slot with
  | none => (Except.error SingletonError.NotInitialized, none)
  | some inst => (Except.ok inst, some inst)

/-- `IpfsStorage.stop()` on an instance: `await this.node.stop()` — the node
handle is released; nothing else in the instance changes. -/
def stopInstance (inst : IpfsStorageInstance) : IpfsStorageInstance :=
  { inst with node := { inst.node with stopped := true } }

/-- Effect of calling `stop()` (on whatever instance the slot holds) on the
process-wide state: `stop` never assigns `IpfsStorage.ipfsStorageSingleton`,
so the slot still holds the same instance, whose node is now stopped. -/
def stopSingleton (slot : Option IpfsStorageInstance) : Option IpfsStorageInstance :=
  slot.map stopInstance

/-! ### `DidDocument.getPublicKey`

From `src/lib/core/versions/latest/DidDocument.ts`.  A JavaScript string is
modelled as its list of characters (so that the embedding is executable down
to the kernel).  The loop guard is
`publicKey.id && publicKey.id.endsWith(keyId)`: JavaScript truthiness, which
rejects both an absent `id` and the empty string — an absent `id` is modelled
as the empty string, which the truthiness test treats identically. -/

/-- `String.prototype.endsWith(t)` on JavaScript strings modelled as character
lists: the suffix test. -/
def jsEndsWith (s t : List Char) : Bool :=
  t.isSuffixOf s

/-- A public-key entry of a DID Document (`DidPublicKeyModel`); only the `id`
field is inspected by `getPublicKey`. -/
structure DidPublicKeyModel where
  id : List Char
deriving DecidableEq, Repr

/-- A DID Document (`DidDocumentModel`): an ordered list of public-key
entries. -/
structure DidDocumentModel where
  publicKey : List DidPublicKeyModel
deriving DecidableEq, Repr

/-- The loop guard of `DidDocument.getPublicKey` applied to one entry:
`publicKey.id && publicKey.id.endsWith(keyId)` — a truthy (non-empty) `id`
that ends with the target `keyId`. -/
def matchesKeyId (keyId : List Char) (pk : DidPublicKeyModel) : Bool :=
  (!(pk.id == [])) && jsEndsWith pk.id keyId

/-- The `for` loop of `DidDocument.getPublicKey` over the remaining entries:
return the first entry passing the truthiness-guarded suffix test
(`matchesKeyId`), else fall through to `undefined`. -/
def getPublicKeyFrom : List DidPublicKeyModel → List Char → Option DidPublicKeyModel
  | [], _ => none
  | publicKey :: rest, keyId =>
    if matchesKeyId keyId publicKey then some publicKey
    else getPublicKeyFrom rest keyId

/-- `DidDocument.getPublicKey(didDocument, keyId)`
(`src/lib/core/versions/latest/DidDocument.ts`). -/
def getPublicKey (didDocument : DidDocumentModel) (keyId : List Char) :
    Option DidPublicKeyModel :=
  getPublicKeyFrom didDocument.publicKey keyId

/-! ### The deadline guard -/

/-- Modelled from the spec: `AsyncTimeout.timeoutAsyncCall` (the spec's
`withDeadline`) is imported by `IpfsStorage.ts` from `../common/AsyncTimeout`,
whose source is not among the given files.  A pending operation is modelled by
the wall-clock time (ms from the start of the race) at which it would resolve,
together with the value it resolves to. -/
structure PendingOp (α : Type) where
  completesAtMs : Nat
  result : α
deriving DecidableEq, Repr

/-- Modelled from the spec: the guard's outcome — the operation's result
unchanged, wrapped so the caller can distinguish a value from a timeout, or
the `Timeout` failure condition. -/
inductive DeadlineOutcome (α : Type) where
  | value (result : α)
  | timeout
deriving DecidableEq, Repr

/-- Modelled from the spec: `timeoutAsyncCall(operation, durationMs)` races the
operation against a timer of `durationMs`.  A zero or negative duration is an
immediate timeout; otherwise whichever of the operation and the timer fires
strictly first decides the outcome (the source of `AsyncTimeout` is not in the
given files, so the tie is resolved in the timer's favour, which neither the
spec nor any claim constrains). -/
def timeoutAsyncCall {α : Type} (op : PendingOp α) (durationMs : Int) :
    DeadlineOutcome α :=
  if durationMs ≤ 0 then DeadlineOutcome.timeout
  else if (op.completesAtMs : Int) < durationMs then DeadlineOutcome.value op.result
  else DeadlineOutcome.timeout

/-! ## Claims -/

/-- C4: for every `read(hash, maxSizeInBytes)`, if the deadline-guarded
metadata probe raises any error (including a timeout), or the returned
metadata is absent, or the metadata lacks a declared `DataSize`, then `read`
returns a `FetchResult` with code `NotFound`. -/
theorem C4_stat_failure_gives_not_found (node : IpfsNode) (hash : String)
    (maxSizeInBytes : Nat)
    (h : node.stat = Except.error () ∨ node.stat = Except.ok none ∨
      ∃ md, node.stat = Except.ok (some md) ∧ md.DataSize = none) :
    (read node hash maxSizeInBytes).result
      = Except.ok { code := FetchResultCode.NotFound } := by
  rcases h with h | h | ⟨md, h, hds⟩ <;> simp [read, h]
  rw [hds]

/-- C4 witness: a node whose stat call raises is answered with `NotFound`. -/
theorem C4_witness :
    (read { stat := Except.error (), catOpen := Except.ok [],
            pinAdd := Except.ok () } "Qm" 5).result
      = Except.ok { code := FetchResultCode.NotFound } :=
  C4_stat_failure_gives_not_found _ "Qm" 5 (Or.inl rfl)

/-- C2: when the metadata probe succeeds with a declared `DataSize` strictly
greater than `maxSizeInBytes`, `read` returns `MaxSizeExceeded` and the
content stream is never opened. -/
theorem C2_declared_size_short_circuit (node : IpfsNode) (hash : String)
    (maxSizeInBytes : Nat) (md : StatMetadata) (dataSize : Nat)
    (hstat : node.stat = Except.ok (some md))
    (hsize : md.DataSize = some dataSize)
    (hgt : maxSizeInBytes < dataSize) :
    (read node hash maxSizeInBytes).result
        = Except.ok { code := FetchResultCode.MaxSizeExceeded }
    ∧ (read node hash maxSizeInBytes).catOpened = false := by
  simp [read, hstat, hsize, hgt]

/-- C2 witness: declared size 5 against limit 3 short-circuits without
opening the stream. -/
theorem C2_witness :
    (read { stat := Except.ok (some { DataSize := some 5 }),
            catOpen := Except.ok [], pinAdd := Except.ok () } "Qm" 3).result
        = Except.ok { code := FetchResultCode.MaxSizeExceeded }
    ∧ (read { stat := Except.ok (some { DataSize := some 5 }),
              catOpen := Except.ok [], pinAdd := Except.ok () } "Qm" 3).catOpened
        = false :=
  C2_declared_size_short_circuit _ "Qm" 3 { DataSize := some 5 } 5 rfl rfl
    (by decide)

/-- C9 (spec-modelled deadline guard): an operation completing strictly before
the timer yields its result unchanged; a timer firing strictly first yields
the `Timeout` failure; a zero or negative duration is an immediate timeout. -/
theorem C9_deadline_guard :
    (∀ (α : Type) (op : PendingOp α) (durationMs : Int),
       0 < durationMs → (op.completesAtMs : Int) < durationMs →
       timeoutAsyncCall op durationMs = DeadlineOutcome.value op.result)
    ∧ (∀ (α : Type) (op : PendingOp α) (durationMs : Int),
       0 < durationMs → durationMs < (op.completesAtMs : Int) →
       timeoutAsyncCall op durationMs = DeadlineOutcome.timeout)
    ∧ (∀ (α : Type) (op : PendingOp α) (durationMs : Int),
       durationMs ≤ 0 → timeoutAsyncCall op durationMs = DeadlineOutcome.timeout) := by
  refine ⟨?_, ?_, ?_⟩
  · intro α op d hd hop
    simp [timeoutAsyncCall, hop, not_le.mpr hd]
  · intro α op d hd hop
    simp [timeoutAsyncCall, not_lt.mpr (le_of_lt hop), not_le.mpr hd]
  · intro α op d hd
    simp [timeoutAsyncCall, hd]

/-- C9 witness: the guard at concrete durations — a result at 3 ms under a
10 ms deadline, a timeout for a 7 ms operation under a 5 ms deadline, and an
immediate timeout for a zero duration. -/
theorem C9_witness :
    timeoutAsyncCall ({ completesAtMs := 3, result := 42 } : PendingOp Nat) 10
        = DeadlineOutcome.value 42
    ∧ timeoutAsyncCall ({ completesAtMs := 7, result := 42 } : PendingOp Nat) 5
        = DeadlineOutcome.timeout
    ∧ timeoutAsyncCall ({ completesAtMs := 3, result := 42 } : PendingOp Nat) 0
        = DeadlineOutcome.timeout :=
  ⟨C9_deadline_guard.1 Nat _ 10 (by decide) (by decide),
   C9_deadline_guard.2.1 Nat _ 5 (by decide) (by decide),
   C9_deadline_guard.2.2 Nat _ 0 (by decide)⟩

/-- C7: `createSingleton` with a live instance fails with `AlreadyExists` and
leaves the existing instance in the slot; `getSingleton` on an empty slot
fails with `NotInitialized`; `getSingleton` never changes the slot. -/
theorem C7_singleton_guards :
    (∀ (slot : Option IpfsStorageInstance) (repo : Option String)
       (inst : IpfsStorageInstance), slot = some inst →
       createSingleton slot repo
         = (Except.error SingletonError.AlreadyExists, some inst))
    ∧ getSingleton none = (Except.error SingletonError.NotInitialized, none)
    ∧ (∀ slot : Option IpfsStorageInstance, (getSingleton slot).2 = slot) := by
  refine ⟨?_, rfl, ?_⟩
  · intro slot repo inst h
    subst h
    rfl
  · intro slot
    cases slot <;> rfl

/-- C7 witness: a second `createSingleton` against an occupied slot fails
with `AlreadyExists` and keeps the stored instance. -/
theorem C7_witness :
    createSingleton
        (some { node := { repo := "sidetree-ipfs", stopped := false } }) none
      = (Except.error SingletonError.AlreadyExists,
         some { node := { repo := "sidetree-ipfs", stopped := false } }) :=
  C7_singleton_guards.1 _ none _ rfl

/-- C10: after a successful `createSingleton` followed by `stop()`, the slot
still holds the same (now stopped) instance: a further `createSingleton`
fails with `AlreadyExists` and leaves the slot as it was, and `getSingleton`
returns the stopped instance. -/
theorem C10_stop_keeps_singleton (repo repo2 : Option String)
    (inst : IpfsStorageInstance) (slot1 : Option IpfsStorageInstance)
    (h : createSingleton none repo = (Except.ok inst, slot1)) :
    stopSingleton slot1 = some (stopInstance inst)
    ∧ (createSingleton (stopSingleton slot1) repo2).1
        = Except.error SingletonError.AlreadyExists
    ∧ (createSingleton (stopSingleton slot1) repo2).2 = stopSingleton slot1
    ∧ (getSingleton (stopSingleton slot1)).1 = Except.ok (stopInstance inst) := by
  have hfst := congrArg Prod.fst h
  have hsnd := congrArg Prod.snd h
  simp [createSingleton] at hfst hsnd
  subst hfst
  subst hsnd
  simp [stopSingleton, stopInstance, createSingleton, getSingleton]

/-- C10 witness: create with the default repo, stop, and observe that the
slot still blocks creation and still serves the stopped instance. -/
theorem C10_witness :
    stopSingleton (some { node := { repo := "sidetree-ipfs", stopped := false } })
        = some (stopInstance { node := { repo := "sidetree-ipfs", stopped := false } })
    ∧ (createSingleton
        (stopSingleton
          (some { node := { repo := "sidetree-ipfs", stopped := false } })) none).1
        = Except.error SingletonError.AlreadyExists
    ∧ (createSingleton
        (stopSingleton
          (some { node := { repo := "sidetree-ipfs", stopped := false } })) none).2
        = stopSingleton
            (some { node := { repo := "sidetree-ipfs", stopped := false } })
    ∧ (getSingleton
        (stopSingleton
          (some { node := { repo := "sidetree-ipfs", stopped := false } }))).1
        = Except.ok
            (stopInstance { node := { repo := "sidetree-ipfs", stopped := false } }) :=
  C10_stop_keeps_singleton none none _ _ rfl

/-- A node on which the fetch succeeds (small declared size, one in-bound
chunk) but the pin call raises. -/
def pinFailNode : IpfsNode :=
  { stat := Except.ok (some { DataSize := some 3 }),
    catOpen := Except.ok [PullEvent.step (some [1, 2, 3]) true],
    pinAdd := Except.error () }

/-- C1 counterexample: on `pinFailNode` the metadata probe and the streaming
fetch both succeed, yet `read` raises — the unguarded `pin.add` failure
escapes to the caller instead of being translated into a `FetchResult`
code, refuting the claim that no raw remote-store error escapes `read`. -/
theorem C1_pin_failure_escapes :
    (read pinFailNode "Qm" 10).result = Except.error () := by
  rfl

/-- C1 amended: failures of the metadata probe and of the streaming stage are
all caught and translated into `FetchResult` codes, but the pin call is not
guarded — a raised error escapes `read` exactly when a pin call was issued
(the fetch had already succeeded) and the pin failed. -/
theorem C1_amended_error_escape_iff (node : IpfsNode) (hash : String)
    (maxSizeInBytes : Nat) :
    (read node hash maxSizeInBytes).result = Except.error ()
      ↔ node.pinAdd = Except.error ()
        ∧ (read node hash maxSizeInBytes).pinCount = 1 := by
  rcases hstat : node.stat with u | omd
  · simp [read, hstat]
  · rcases omd with _ | md
    · simp [read, hstat]
    · rcases hds : md.DataSize with _ | ds
      · simp [read, hstat, hds]
      · by_cases hlt : maxSizeInBytes < ds
        · simp [read, hstat, hds, hlt]
        · by_cases hsucc :
            (fetchContent node maxSizeInBytes).1.code = FetchResultCode.Success
          · rcases hpin : node.pinAdd with u | v
            · simp [read, hstat, hds, hlt, hsucc, hpin]
            · simp [read, hstat, hds, hlt, hsucc, hpin]
          · simp [read, hstat, hds, hlt, hsucc]

/-- C6: a pin call is issued if and only if the streaming fetch stage ran and
produced `Success`, and then exactly one pin call is issued. -/
theorem C6_pin_iff_fetch_success (node : IpfsNode) (hash : String)
    (maxSizeInBytes : Nat) :
    (read node hash maxSizeInBytes).pinCount
      = if (read node hash maxSizeInBytes).catOpened = true
            ∧ (fetchContent node maxSizeInBytes).1.code = FetchResultCode.Success
        then 1 else 0 := by
  rcases hstat : node.stat with u | omd
  · simp [read, hstat]
  · rcases omd with _ | md
    · simp [read, hstat]
    · rcases hds : md.DataSize with _ | ds
      · simp [read, hstat, hds]
      · by_cases hlt : maxSizeInBytes < ds
        · simp [read, hstat, hds, hlt]
        · by_cases hsucc :
            (fetchContent node maxSizeInBytes).1.code = FetchResultCode.Success
          · rcases hpin : node.pinAdd with u | v
            · simp [read, hstat, hds, hlt, hsucc, hpin]
            · simp [read, hstat, hds, hlt, hsucc, hpin]
          · simp [read, hstat, hds, hlt, hsucc]

/-- C3: the loop accumulates a running byte total over received chunks; at
the first pull whose chunk pushes the total strictly over `maxSizeInBytes`,
the fetch returns `MaxSizeExceeded` with exactly that one pull performed (no
further chunk is pulled), without retaining the crossing chunk (`content` is
absent); and a `read` that returns `MaxSizeExceeded` issues no pin call. -/
theorem C3_stream_limit_abort :
    (∀ (maxSizeInBytes currentContentSize : Nat) (chunk : List Nat) (d : Bool)
       (rest : List PullEvent) (bufferChunks : List (List Nat)),
       currentContentSize ≤ maxSizeInBytes →
       maxSizeInBytes < currentContentSize + chunk.length →
       fetchContentLoop maxSizeInBytes (PullEvent.step (some chunk) d :: rest)
           bufferChunks currentContentSize
         = ({ code := FetchResultCode.MaxSizeExceeded, content := none }, 1))
    ∧ (∀ (node : IpfsNode) (hash : String) (maxSizeInBytes : Nat)
       (fr : FetchResult),
       (read node hash maxSizeInBytes).result = Except.ok fr →
       fr.code = FetchResultCode.MaxSizeExceeded →
       (read node hash maxSizeInBytes).pinCount = 0) := by
  constructor
  · intro max size chunk d rest buf _ hover
    simp [fetchContentLoop, hover]
  · intro node hash max fr h hcode
    rcases hstat : node.stat with u | omd
    · simp [read, hstat]
    · rcases omd with _ | md
      · simp [read, hstat]
      · rcases hds : md.DataSize with _ | ds
        · simp [read, hstat, hds]
        · by_cases hlt : max < ds
          · simp [read, hstat, hds, hlt]
          · by_cases hsucc :
              (fetchContent node max).1.code = FetchResultCode.Success
            · rcases hpin : node.pinAdd with u | v
              · simp [read, hstat, hds, hlt, hsucc, hpin] at h
              · simp [read, hstat, hds, hlt, hsucc, hpin] at h
                rw [← h] at hcode
                rw [hsucc] at hcode
                exact absurd hcode (by decide)
            · simp [read, hstat, hds, hlt, hsucc]

/-- C3 witness: limit 100 with chunks of 60 then 60 — the second pull crosses
the limit and the loop stops there with `MaxSizeExceeded` and no retained
content; and a concrete `read` returning `MaxSizeExceeded` issues no pin. -/
theorem C3_witness :
    fetchContentLoop 100
        (PullEvent.step (some (List.replicate 60 7)) false
          :: [PullEvent.step (some (List.replicate 60 7)) true])
        [List.replicate 60 7] 60
      = ({ code := FetchResultCode.MaxSizeExceeded, content := none }, 1)
    ∧ (read { stat := Except.ok (some { DataSize := some 50 }),
              catOpen := Except.ok
                [PullEvent.step (some (List.replicate 60 7)) false,
                 PullEvent.step (some (List.replicate 60 7)) true],
              pinAdd := Except.ok () } "Qm" 100).pinCount
        = 0 :=
  ⟨(C3_stream_limit_abort.1 100 60 (List.replicate 60 7) false
      [PullEvent.step (some (List.replicate 60 7)) true]
      [List.replicate 60 7] (by decide) (by simp)),
   (C3_stream_limit_abort.2
      { stat := Except.ok (some { DataSize := some 50 }),
        catOpen := Except.ok
          [PullEvent.step (some (List.replicate 60 7)) false,
           PullEvent.step (some (List.replicate 60 7)) true],
        pinAdd := Except.ok () } "Qm" 100
      { code := FetchResultCode.MaxSizeExceeded } (by rfl) rfl)⟩

/-- The accumulation loop's `FetchResult` carries a content buffer exactly on
`Success`, and then it is the flattening of the chunks accumulated so far
followed by the chunks the remaining events deliver, in receipt order. -/
theorem fetchContentLoop_content (maxSizeInBytes : Nat) (events : List PullEvent) :
    ∀ (bufferChunks : List (List Nat)) (currentContentSize : Nat),
      ((fetchContentLoop maxSizeInBytes events bufferChunks currentContentSize).1.code
          = FetchResultCode.Success →
        (fetchContentLoop maxSizeInBytes events bufferChunks currentContentSize).1.content
          = some (bufferChunks ++ streamChunks events).flatten)
      ∧ ((fetchContentLoop maxSizeInBytes events bufferChunks currentContentSize).1.code
          ≠ FetchResultCode.Success →
        (fetchContentLoop maxSizeInBytes events bufferChunks currentContentSize).1.content
          = none) := by
  induction events with
  | nil =>
    intro buf size
    simp [fetchContentLoop, streamChunks]
  | cons e rest ih =>
    intro buf size
    cases e with
    | undef => simp [fetchContentLoop, streamChunks]
    | err => simp [fetchContentLoop, streamChunks]
    | step v d =>
      cases v with
      | none =>
        cases d with
        | true => simp [fetchContentLoop, streamChunks]
        | false =>
          simpa [fetchContentLoop, streamChunks] using ih buf size
      | some c =>
        by_cases hsz : maxSizeInBytes < size + c.length
        · simp [fetchContentLoop, hsz]
        · cases d with
          | true => simp [fetchContentLoop, streamChunks, hsz]
          | false =>
            simpa [fetchContentLoop, streamChunks, hsz, List.append_assoc]
              using ih (buf ++ [c]) (size + c.length)

/-- C5: for every `FetchResult` that `read` returns, the `content` field is
absent for every non-`Success` code, and for `Success` it is present and
equals the flattening, in receipt order, of exactly the chunks the stream
delivered. -/
theorem C5_content_invariant (node : IpfsNode) (hash : String)
    (maxSizeInBytes : Nat) (fr : FetchResult)
    (h : (read node hash maxSizeInBytes).result = Except.ok fr) :
    (fr.code ≠ FetchResultCode.Success → fr.content = none)
    ∧ (fr.code = FetchResultCode.Success →
       ∃ events, node.catOpen = Except.ok events
         ∧ fr.content = some (streamChunks events).flatten) := by
  have hfetch : ∀ (hfr : fr = (fetchContent node maxSizeInBytes).1),
      (fr.code ≠ FetchResultCode.Success → fr.content = none)
      ∧ (fr.code = FetchResultCode.Success →
         ∃ events, node.catOpen = Except.ok events
           ∧ fr.content = some (streamChunks events).flatten) := by
    intro hfr
    rcases hcat : node.catOpen with u | events
    · rw [hfr]
      simp [fetchContent, hcat]
    · have hloop := fetchContentLoop_content maxSizeInBytes events [] 0
      constructor
      · intro hne
        rw [hfr] at hne ⊢
        simp only [fetchContent, hcat] at hne ⊢
        exact hloop.2 hne
      · intro heq
        refine ⟨events, rfl, ?_⟩
        rw [hfr] at heq ⊢
        simp only [fetchContent, hcat] at heq ⊢
        simpa using hloop.1 heq
  rcases hstat : node.stat with u | omd
  · simp [read, hstat] at h
    subst h
    simp
  · rcases omd with _ | md
    · simp [read, hstat] at h
      subst h
      simp
    · rcases hds : md.DataSize with _ | ds
      · simp [read, hstat, hds] at h
        subst h
        simp
      · by_cases hlt : maxSizeInBytes < ds
        · simp [read, hstat, hds, hlt] at h
          subst h
          simp
        · by_cases hsucc :
            (fetchContent node maxSizeInBytes).1.code = FetchResultCode.Success
          · rcases hpin : node.pinAdd with u | v
            · simp [read, hstat, hds, hlt, hsucc, hpin] at h
            · simp [read, hstat, hds, hlt, hsucc, hpin] at h
              exact hfetch h.symm
          · simp [read, hstat, hds, hlt, hsucc] at h
            exact hfetch h.symm

/-- C5 witness: a successful two-chunk read whose content is the chunks
joined in receipt order, instantiating the invariant at a concrete node. -/
theorem C5_witness :
    (({ code := FetchResultCode.Success, content := some [7, 8, 9] }
        : FetchResult).code ≠ FetchResultCode.Success →
      ({ code := FetchResultCode.Success, content := some [7, 8, 9] }
        : FetchResult).content = none)
    ∧ (({ code := FetchResultCode.Success, content := some [7, 8, 9] }
        : FetchResult).code = FetchResultCode.Success →
       ∃ events,
         ({ stat := Except.ok (some { DataSize := some 3 }),
            catOpen := Except.ok
              [PullEvent.step (some [7, 8]) false,
               PullEvent.step (some [9]) true],
            pinAdd := Except.ok () } : IpfsNode).catOpen = Except.ok events
         ∧ ({ code := FetchResultCode.Success, content := some [7, 8, 9] }
             : FetchResult).content = some (streamChunks events).flatten) :=
  C5_content_invariant
    { stat := Except.ok (some { DataSize := some 3 }),
      catOpen := Except.ok
        [PullEvent.step (some [7, 8]) false, PullEvent.step (some [9]) true],
      pinAdd := Except.ok () } "Qm" 10
    { code := FetchResultCode.Success, content := some [7, 8, 9] } (by rfl)

/-- The `getPublicKey` loop is `List.find?` with the truthiness-guarded
suffix test. -/
theorem getPublicKeyFrom_eq_find (keyId : List Char)
    (l : List DidPublicKeyModel) :
    getPublicKeyFrom l keyId = l.find? (matchesKeyId keyId) := by
  induction l with
  | nil => rfl
  | cons pk rest ih =>
    cases hm : matchesKeyId keyId pk with
    | true => simp [getPublicKeyFrom, List.find?_cons, hm]
    | false => simp [getPublicKeyFrom, List.find?_cons, hm, ih]

/-- C8 counterexample: with an entry whose `id` is the empty string and the
empty target, the entry's `id` does end with the target (so the claim selects
the first entry), yet `getPublicKey` skips it — the JavaScript truthiness
guard `publicKey.id &&` rejects an empty `id` — and returns the second entry
instead. -/
theorem C8_empty_id_skipped :
    jsEndsWith ([] : List Char) [] = true
    ∧ getPublicKey { publicKey := [{ id := [] }, { id := ['a'] }] } []
        = some { id := ['a'] }
    ∧ getPublicKey { publicKey := [{ id := [] }, { id := ['a'] }] } []
        ≠ some { id := [] } := by
  refine ⟨rfl, rfl, ?_⟩
  decide

/-- C8 amended: `getPublicKey` returns the first entry in list order whose
`id` is truthy (non-empty) and ends with the target string, and returns
`undefined` exactly when no entry has a truthy `id` with the target as a
suffix. -/
theorem C8_first_truthy_suffix_match (didDocument : DidDocumentModel)
    (keyId : List Char) :
    (∀ pk, getPublicKey didDocument keyId = some pk ↔
       (matchesKeyId keyId pk = true
         ∧ ∃ pre post, didDocument.publicKey = pre ++ pk :: post
             ∧ ∀ q ∈ pre, matchesKeyId keyId q = false))
    ∧ (getPublicKey didDocument keyId = none ↔
       ∀ pk ∈ didDocument.publicKey, matchesKeyId keyId pk = false) := by
  constructor
  · intro pk
    rw [getPublicKey, getPublicKeyFrom_eq_find, List.find?_eq_some]
    simp
  · rw [getPublicKey, getPublicKeyFrom_eq_find, List.find?_eq_none]
    simp

end SidetreeSpec
